import Mathlib

set_option maxRecDepth 4000

/-!
Verification of the Tool Registry, Dynamic Query-Builder and Schema-Aware
Execution Core of the neo4j-mcp-fraud MCP server.

The Go sources are shallowly embedded below.  Pure string-building Go
functions become Lean functions on `String`; Go `fmt.Sprintf` templates are
transcribed byte for byte (including tabs); stateful builders become explicit
state passing.  Go maps have an unspecified iteration order, so every function
of the source that ranges over a map is parameterised by the iteration order
(a list of the map keys); theorems either hold for every order or exhibit an
admissible order (a permutation of the key set).  Brace and apostrophe
characters inside string literals are written with \x7b, \x7d and \x27
escapes; the denoted strings are the exact bytes of the Go sources.
-/

/-! ## Generic string utilities (Go `strings` package fragments) -/

/-- ASCII upper-casing of a character, as Go `strings.ToUpper` acts on ASCII. -/
def goToUpperChar (c : Char) : Char :=
  if 'a' ≤ c ∧ c ≤ 'z' then Char.ofNat (c.toNat - 32) else c

/-- ASCII lower-casing of a character, as Go `strings.ToLower` acts on ASCII. -/
def goToLowerChar (c : Char) : Char :=
  if 'A' ≤ c ∧ c ≤ 'Z' then Char.ofNat (c.toNat + 32) else c

/-- Go `strings.ToUpper`, restricted to ASCII input. -/
def goToUpper (s : String) : String := String.mk (s.data.map goToUpperChar)

/-- Go `strings.ToLower`, restricted to ASCII input. -/
def goToLower (s : String) : String := String.mk (s.data.map goToLowerChar)

/-- ASCII whitespace recognised by Go `unicode.IsSpace`. -/
def goIsSpace (c : Char) : Bool :=
  c = ' ' || c = '\t' || c = '\n' || c = '\x0d' || c = '\x0b' || c = '\x0c'

/-- Go `strings.TrimSpace`, restricted to ASCII whitespace. -/
def goTrimSpace (s : String) : String :=
  String.mk (((s.data.dropWhile goIsSpace).reverse.dropWhile goIsSpace).reverse)

/-- Decides whether the pattern `p` is a prefix of `s`. -/
def chPre (p s : List Char) : Bool :=
  match p, s with
  | [], _ => true
  | _ :: _, [] => false
  | a :: p', b :: s' => a == b && chPre p' s'

/-- Decides whether the pattern `p` occurs contiguously somewhere in `s`. -/
def chSub (p s : List Char) : Bool :=
  match s with
  | [] => chPre p []
  | _ :: s' => chPre p s || chSub p s'

/-- Go `strings.Contains s pat`. -/
def strContains (s pat : String) : Bool := chSub pat.data s.data

/-- Go `strings.HasPrefix s pre`. -/
def strStartsWith (s pre : String) : Bool := chPre pre.data s.data

/-- Go `strings.HasSuffix s post`. -/
def strEndsWith (s post : String) : Bool := chPre post.data.reverse s.data.reverse

/-- Index of the first occurrence of `p` in `s` (at offset `n`), if any. -/
def firstIdxAux (p : List Char) : List Char → Nat → Option Nat
  | [], n => if chPre p [] then some n else none
  | c :: s', n => if chPre p (c :: s') then some n else firstIdxAux p s' (n + 1)

/-- Index of the first occurrence of the string `pat` in `s`, if any. -/
def firstIdx (s pat : String) : Option Nat := firstIdxAux pat.data s.data 0

/-- Strict comparison of two optional indices; `false` when either is absent. -/
def idxLt : Option Nat → Option Nat → Bool
  | some a, some b => a < b
  | _, _ => false

/-- Go `strings.Join parts sep` (same as `String.intercalate`). -/
def goJoin (sep : String) : List String → String
  | [] => ""
  | [x] => x
  | x :: y :: t => x ++ sep ++ goJoin sep (y :: t)

/-- Concatenation of a list of strings. -/
def strConcat : List String → String
  | [] => ""
  | s :: t => s ++ strConcat t

/-- Flattening used to model iteration over a Go map given a key order. -/
def keyedFlat {α : Type} (keys : List String) (f : String → List α) : List α :=
  match keys with
  | [] => []
  | k :: t => f k ++ keyedFlat t f

/-- Go `strings.ReplaceAll s "-" "_"` (single-character replacement). -/
def replaceDashes (s : String) : String :=
  String.mk (s.data.map (fun c => if c = '-' then '_' else c))

/-- Go `strings.Split s "/"`, producing the list of slash-separated segments. -/
def splitSlashAux : List Char → List Char → List String
  | [], acc => [String.mk acc.reverse]
  | c :: t, acc =>
    if c = '/' then String.mk acc.reverse :: splitSlashAux t []
    else splitSlashAux t (c :: acc)

/-- Go `strings.Split s "/"`. -/
def splitSlash (s : String) : List String := splitSlashAux s.data []

/-! ## Substring-freeness machinery

To prove that a generated query section contains no `collect(` substring we
track the adjacent-character pairs of the section.  Any occurrence of
`collect(` yields an adjacent pair `('t', '(')`; the sections we analyse never
contain that pair, which we establish compositionally. -/

/-- The list of adjacent character pairs of a character list. -/
def chPairs : List Char → List (Char × Char)
  | a :: b :: t => (a, b) :: chPairs (b :: t)
  | _ => []

/-- Safety invariant for query sections: the adjacent pair `('t', '(')` never
occurs and the section does not begin with `'('`.  Closed under append. -/
def TPSafe (s : String) : Prop :=
  ('t', '(') ∉ chPairs s.data ∧ s.data.head? ≠ some '('

instance (s : String) : Decidable (TPSafe s) := by unfold TPSafe; infer_instance

/-- A string none of whose characters is `'('`. -/
def ParenFree (s : String) : Prop := '(' ∉ s.data

instance (s : String) : Decidable (ParenFree s) := by unfold ParenFree; infer_instance

/-! ## Query Builder Kit (src/internal/tools/cypher/query_builder) -/

/-- Field-for-field image of the Go struct `query_builder.AttributeMapping`. -/
structure AttributeMapping where
  RelationshipType : String
  TargetLabel : String
  IdentifierProperty : String
  AttributeCategory : String
  IncludeProperties : List String
deriving DecidableEq, Repr

/-- Field-for-field image of the Go struct `query_builder.PathSpecification`;
the Go `int` hop fields become `Int`. -/
structure PathSpecification where
  RelationshipType : String
  Direction : String
  TargetLabel : String
  MinHops : Int
  MaxHops : Int
deriving DecidableEq, Repr

/-- State of a Go `query_builder.OptionalMatchBuilder` value. -/
structure OptionalMatchBuilder where
  clauses : List String
  varCounter : Nat
deriving DecidableEq, Repr

/-- Go `query_builder.NewOptionalMatchBuilder`. -/
def NewOptionalMatchBuilder : OptionalMatchBuilder := ⟨[], 0⟩

/-- Go `(*OptionalMatchBuilder).AddAttributeMatch`: returns the generated
variable name together with the updated builder state. -/
def AddAttributeMatch (b : OptionalMatchBuilder) (sourceVar : String)
    (mapping : AttributeMapping) : String × OptionalMatchBuilder :=
  let varName := "attr" ++ toString b.varCounter
  let clause := "OPTIONAL MATCH (" ++ sourceVar ++ ")-[:" ++
    mapping.RelationshipType ++ "]->(" ++ varName ++ ":" ++
    mapping.TargetLabel ++ ")"
  (varName, ⟨b.clauses ++ [clause], b.varCounter + 1⟩)

/-- Hop specifier rendering inside Go `(*OptionalMatchBuilder).AddPathMatch`. -/
def pathHopSpec (p : PathSpecification) : String :=
  if p.MinHops > 0 ∨ p.MaxHops > 0 then
    if p.MinHops = p.MaxHops ∧ p.MinHops > 0 then "*" ++ toString p.MinHops
    else if p.MaxHops > 0 then
      if p.MinHops > 0 then "*" ++ toString p.MinHops ++ ".." ++ toString p.MaxHops
      else "*.." ++ toString p.MaxHops
    else if p.MinHops > 0 then "*" ++ toString p.MinHops ++ ".."
    else ""
  else ""

/-- Go `(*OptionalMatchBuilder).AddPathMatch`: returns the generated variable
name together with the updated builder state. -/
def AddPathMatch (b : OptionalMatchBuilder) (sourceVar : String)
    (p : PathSpecification) : String × OptionalMatchBuilder :=
  let varName := "path" ++ toString b.varCounter
  let hopSpec := pathHopSpec p
  let clause :=
    if p.Direction = "in" then
      "OPTIONAL MATCH (" ++ sourceVar ++ ")<-[:" ++ p.RelationshipType ++
        hopSpec ++ "]-(" ++ varName ++ ":" ++ p.TargetLabel ++ ")"
    else if p.Direction = "both" then
      "OPTIONAL MATCH (" ++ sourceVar ++ ")-[:" ++ p.RelationshipType ++
        hopSpec ++ "]-(" ++ varName ++ ":" ++ p.TargetLabel ++ ")"
    else
      "OPTIONAL MATCH (" ++ sourceVar ++ ")-[:" ++ p.RelationshipType ++
        hopSpec ++ "]->(" ++ varName ++ ":" ++ p.TargetLabel ++ ")"
  (varName, ⟨b.clauses ++ [clause], b.varCounter + 1⟩)

/-- Go `(*OptionalMatchBuilder).AddCustomMatch` (does not touch the counter). -/
def AddCustomMatch (b : OptionalMatchBuilder) (clause : String) :
    OptionalMatchBuilder :=
  ⟨b.clauses ++ ["OPTIONAL MATCH " ++ clause], b.varCounter⟩

/-- Go `(*OptionalMatchBuilder).Build`. -/
def builderBuild (b : OptionalMatchBuilder) : String :=
  if b.clauses = [] then "" else goJoin "\n" b.clauses

/-- One call against an `OptionalMatchBuilder` instance. -/
inductive BuilderOp
  | attrOp (sourceVar : String) (m : AttributeMapping)
  | pathOp (sourceVar : String) (p : PathSpecification)
  | customOp (clause : String)
deriving DecidableEq, Repr

/-- Names returned by the `AddAttributeMatch` calls of an op sequence, run
against the given starting builder state. -/
def attrNamesFrom (b : OptionalMatchBuilder) : List BuilderOp → List String
  | [] => []
  | .attrOp sv m :: rest =>
    let r := AddAttributeMatch b sv m
    r.1 :: attrNamesFrom r.2 rest
  | .pathOp sv p :: rest => attrNamesFrom (AddPathMatch b sv p).2 rest
  | .customOp c :: rest => attrNamesFrom (AddCustomMatch b c) rest

/-- Names returned by the `AddAttributeMatch` calls of an op sequence run
against a fresh builder. -/
def attrNames (ops : List BuilderOp) : List String :=
  attrNamesFrom NewOptionalMatchBuilder ops

/-- Number of `attrOp` entries in an op sequence. -/
def countAttrOps : List BuilderOp → Nat
  | [] => 0
  | .attrOp _ _ :: rest => countAttrOps rest + 1
  | _ :: rest => countAttrOps rest

/-- Whether an op sequence contains an `AddPathMatch` call. -/
def hasPathOp : List BuilderOp → Bool
  | [] => false
  | .pathOp _ _ :: _ => true
  | _ :: rest => hasPathOp rest

/-- Go `query_builder.BuildPropertyMap`. -/
def BuildPropertyMap (varName : String) (mapping : AttributeMapping) : String :=
  if mapping.IncludeProperties ≠ [] then
    let projections :=
      (if mapping.IdentifierProperty ≠ "" then ["." ++ mapping.IdentifierProperty]
       else []) ++ mapping.IncludeProperties.map (fun p => "." ++ p)
    varName ++ "\x7b" ++ goJoin ", " projections ++ "\x7d"
  else if mapping.IdentifierProperty ≠ "" then
    varName ++ "\x7b." ++ mapping.IdentifierProperty ++ ", .*\x7d"
  else varName ++ "\x7b.*\x7d"

/-- Go `query_builder.SanitizeIdentifier`. -/
def SanitizeIdentifier (s : String) : String :=
  let kept := s.data.filter (fun r =>
    ('a' ≤ r && r ≤ 'z') || ('A' ≤ r && r ≤ 'Z') || ('0' ≤ r && r ≤ '9'))
  match kept with
  | [] => "var"
  | c :: _ =>
    if '0' ≤ c ∧ c ≤ '9' then "v" ++ String.mk kept else String.mk kept

/-- Grouping key assigned by Go `query_builder.GroupMappingsByCategory`:
an empty category maps to `other_attributes`. -/
def catOf (m : AttributeMapping) : String :=
  if m.AttributeCategory = "" then "other_attributes" else m.AttributeCategory

/-! ## Schema-aware profile tool
(src/internal/tools/data/customer_profile, function `buildCustomerProfileQuery`)

`buildCustomerProfileQuery` ranges over the Go map produced by
`GroupMappingsByCategory` and, per category, over the map of collection
aliases.  Both iterations have unspecified order, so the embedding takes the
category iteration order `catOrder` and the per-category key iteration order
`keyOrder` as parameters; an execution of the Go code corresponds to an
admissible instantiation (each order a permutation of the key set). -/

/-- Image of the Go struct `customer_profile.EntityConfig`. -/
structure EntityConfig where
  NodeLabel : String
  IdProperty : String
  BaseProperties : List String
deriving DecidableEq, Repr

/-- The mappings in the order the Go code visits them: category iteration
order, then supply order inside each category. -/
def orderedMappings (ms : List AttributeMapping) (catOrder : List String) :
    List AttributeMapping :=
  keyedFlat catOrder (fun c => ms.filter (fun m => catOf m == c))

/-- Collection key of a mapping: lower-cased target label with a trailing `s`. -/
def collectionKeyOf (m : AttributeMapping) : String :=
  goToLower m.TargetLabel ++ "s"

/-- Aggregation alias of a mapping: the category with hyphens replaced by
underscores, an underscore, then the collection key. -/
def collectionAliasOf (m : AttributeMapping) : String :=
  replaceDashes (catOf m) ++ "_" ++ collectionKeyOf m

/-- The `OPTIONAL MATCH` clauses emitted by `buildCustomerProfileQuery` (one per
mapping, numbered by the shared builder counter). -/
def profileOptClauses (ms : List AttributeMapping) (catOrder : List String) :
    List String :=
  (orderedMappings ms catOrder).enum.map (fun im =>
    "OPTIONAL MATCH (e)-[:" ++ im.2.RelationshipType ++ "]->(attr" ++
      toString im.1 ++ ":" ++ im.2.TargetLabel ++ ")")

/-- Aliases of the `collect(DISTINCT …)` expressions of the `WITH` stage, in
emission order. -/
def profileWithAliases (ms : List AttributeMapping) (catOrder : List String) :
    List String :=
  (orderedMappings ms catOrder).map collectionAliasOf

/-- The `collect(DISTINCT …) as alias` fragments of the `WITH` stage. -/
def profileWithItems (ms : List AttributeMapping) (catOrder : List String) :
    List String :=
  (orderedMappings ms catOrder).enum.map (fun im =>
    ",\n     collect(DISTINCT " ++
      BuildPropertyMap ("attr" ++ toString im.1) im.2 ++ ") as " ++
      collectionAliasOf im.2)

/-- The `OPTIONAL MATCH` block of the emitted query (with its trailing
newline), empty when there is no clause. -/
def profileOptPart (ms : List AttributeMapping) (catOrder : List String) :
    String :=
  if (orderedMappings ms catOrder).length > 0 then
    goJoin "\n" (profileOptClauses ms catOrder) ++ "\n"
  else ""

/-- The `base_details` value of the `RETURN` map. -/
def profileBaseStr (ec : EntityConfig) : String :=
  if ec.BaseProperties.isEmpty then "properties(e)"
  else
    "\x7b\n" ++
      goJoin ",\n" (ec.BaseProperties.map (fun p => "    " ++ p ++ ": e." ++ p)) ++
      "\n  \x7d"

/-- Go `buildCategoryReturnClauseFromCollections`, with the key iteration
order made explicit.  The alias looked up for a key `k` of category `c` is
always `replaceDashes c ++ "_" ++ k`, matching the map contents. -/
def buildCategoryReturnClauseFromCollections (c : String) (keys : List String) :
    String :=
  "  " ++ c ++ ": \x7b\n" ++
    goJoin ",\n" (keys.map (fun k =>
      "    " ++ k ++ ": " ++ replaceDashes c ++ "_" ++ k)) ++
    "\n  \x7d"

/-- The `RETURN` section of the emitted profile query (everything the Go code
writes from `RETURN {` to the end). -/
def profileReturnStage (ec : EntityConfig) (catOrder : List String)
    (keyOrder : String → List String) : String :=
  "RETURN \x7b\n" ++ "  base_details: " ++ profileBaseStr ec ++
    strConcat (catOrder.map (fun c =>
      ",\n" ++ buildCategoryReturnClauseFromCollections c (keyOrder c))) ++
    "\n\x7d as entityProfile"

/-- Go `customer_profile.buildCustomerProfileQuery`, parameterised by the two
map iteration orders. -/
def buildCustomerProfileQuery (ec : EntityConfig) (ms : List AttributeMapping)
    (catOrder : List String) (keyOrder : String → List String) : String :=
  "MATCH (e:" ++ ec.NodeLabel ++ " \x7b" ++ ec.IdProperty ++
      ": $entityId\x7d)\n" ++
    profileOptPart ms catOrder ++
    "WITH e" ++ strConcat (profileWithItems ms catOrder) ++ "\n" ++
    profileReturnStage ec catOrder keyOrder

/-- The category set of a mapping list (Go map key set, in first-insertion
order). -/
def profileCats (ms : List AttributeMapping) : List String :=
  (ms.map catOf).dedup

/-- The collection-key set of one category (Go map key set, in
first-insertion order). -/
def categoryKeys (c : String) (ms : List AttributeMapping) : List String :=
  ((ms.filter (fun m => catOf m == c)).map collectionKeyOf).dedup

/-- Number of (possibly overlapping) occurrence positions of `p` in a list. -/
def occAux (p : List Char) : List Char → Nat
  | [] => 0
  | c :: t => (if chPre p (c :: t) then 1 else 0) + occAux p t

/-- Number of occurrence positions of the string `pat` in `s`. -/
def strOccCount (s pat : String) : Nat := occAux pat.data s.data

/-- The full `WITH` stage written by `buildCustomerProfileQuery`. -/
def profileWithStage (ms : List AttributeMapping) (catOrder : List String) :
    String :=
  "WITH e" ++ strConcat (profileWithItems ms catOrder) ++ "\n"

/-! ## Schema-aware identity overlap tool
(src, package `synthetic_identity`: `buildInvestigationQuery`,
`buildDiscoveryQuery`, `buildReturnClause`, `buildQueryComponents`,
`titleCase`, `handleDetectSyntheticIdentity`) -/

/-- Image of the Go struct `synthetic_identity.PIIRelationship`. -/
structure PIIRelationship where
  RelationshipType : String
  TargetLabel : String
  IdentifierProperty : String
deriving DecidableEq, Repr

/-- Image of the Go struct `synthetic_identity.EntityConfig`. -/
structure SynthEntityConfig where
  NodeLabel : String
  IdProperty : String
  DisplayProperties : List String
deriving DecidableEq, Repr

/-- Go `synthetic_identity.titleCase`. -/
def titleCase (s : String) : String :=
  match s.data with
  | [] => ""
  | c :: t => String.mk (goToUpperChar c :: t)

/-- Go `synthetic_identity.buildQueryComponents`: the `|`-joined
relationship-type pattern and the generated `CASE` clauses. -/
def buildQueryComponents (pii : List PIIRelationship) : String × String :=
  (goJoin "|" (pii.map (fun p => p.RelationshipType)),
   goJoin "\n                 " (pii.map (fun p =>
     "WHEN identifier:" ++ p.TargetLabel ++ " THEN identifier." ++
       p.IdentifierProperty)))

/-- Go `synthetic_identity.buildReturnClause`. -/
def buildReturnClause (sc : SynthEntityConfig) (varName : String) : String :=
  goJoin ",\n               "
    ((varName ++ "." ++ sc.IdProperty ++ " as " ++ varName ++ "Id") ::
      (if sc.DisplayProperties ≠ [] then
        (sc.DisplayProperties.filter (fun p => p ≠ sc.IdProperty)).map (fun p =>
          varName ++ "." ++ p ++ " as " ++ (varName ++ titleCase p))
      else ["properties(" ++ varName ++ ") as " ++ varName ++ "Properties"]))

/-- Everything `buildInvestigationQuery` emits before its `RETURN` keyword
(the exact bytes of the Go template, tabs included). -/
def invPre (sc : SynthEntityConfig) (pii : List PIIRelationship) : String :=
  "\n\t\tMATCH (target:" ++ sc.NodeLabel ++ " \x7b" ++ sc.IdProperty ++
    ": $entityId\x7d)\n\t\tMATCH (target)-[r:" ++ (buildQueryComponents pii).1 ++
    "]->(identifier)\n\t\tMATCH (identifier)<-[r2:" ++
    (buildQueryComponents pii).1 ++ "]-(other:" ++ sc.NodeLabel ++
    ")\n\t\tWHERE target." ++ sc.IdProperty ++ " <> other." ++ sc.IdProperty ++
    "\n\t\tWITH other,\n\t\t     collect(DISTINCT \x7b\n\t\t         type: type(r2),\n\t\t         identifier: CASE\n\t\t             " ++
    (buildQueryComponents pii).2 ++
    "\n\t\t             ELSE \x27Unknown\x27\n\t\t         END\n\t\t     \x7d) as sharedAttributes\n\t\tWHERE size(sharedAttributes) >= $minSharedAttributes\n\t\t"

/-- The `RETURN` section of the investigation-mode query. -/
def invReturnStage (sc : SynthEntityConfig) : String :=
  "RETURN " ++ buildReturnClause sc "other" ++
    ",\n\t\t       sharedAttributes,\n\t\t       size(sharedAttributes) as sharedAttributeCount\n\t\tORDER BY sharedAttributeCount DESC\n\t\tLIMIT $limit\n\t"

/-- Go `synthetic_identity.buildInvestigationQuery`. -/
def buildInvestigationQuery (sc : SynthEntityConfig)
    (pii : List PIIRelationship) : String :=
  invPre sc pii ++ invReturnStage sc

/-- Everything `buildDiscoveryQuery` emits before its `RETURN` keyword. -/
def discPre (sc : SynthEntityConfig) (pii : List PIIRelationship) : String :=
  "\n\t\tMATCH (e1:" ++ sc.NodeLabel ++ ")-[r1:" ++
    (buildQueryComponents pii).1 ++ "]->(identifier)<-[r2:" ++
    (buildQueryComponents pii).1 ++ "]-(e2:" ++ sc.NodeLabel ++
    ")\n\t\tWHERE id(e1) < id(e2)\n\t\tWITH e1, e2,\n\t\t     collect(DISTINCT \x7b\n\t\t         type: type(r1),\n\t\t         identifier: CASE\n\t\t             " ++
    (buildQueryComponents pii).2 ++
    "\n\t\t             ELSE \x27Unknown\x27\n\t\t         END\n\t\t     \x7d) as sharedAttributes\n\t\tWHERE size(sharedAttributes) >= $minSharedAttributes\n\t\tWITH e1, e2, sharedAttributes, size(sharedAttributes) as sharedAttributeCount\n\t\tORDER BY sharedAttributeCount DESC\n\t\tLIMIT $limit\n\t\t"

/-- The `RETURN` section of the discovery-mode query. -/
def discReturnStage (sc : SynthEntityConfig) : String :=
  "RETURN " ++ buildReturnClause sc "e1" ++ ",\n\t\t       " ++
    buildReturnClause sc "e2" ++
    ",\n\t\t       sharedAttributes,\n\t\t       sharedAttributeCount\n\t"

/-- Go `synthetic_identity.buildDiscoveryQuery`. -/
def buildDiscoveryQuery (sc : SynthEntityConfig)
    (pii : List PIIRelationship) : String :=
  discPre sc pii ++ discReturnStage sc

/-- The part of the profile query before its `RETURN` section. -/
def profilePre (ec : EntityConfig) (ms : List AttributeMapping)
    (catOrder : List String) : String :=
  "MATCH (e:" ++ ec.NodeLabel ++ " \x7b" ++ ec.IdProperty ++
      ": $entityId\x7d)\n" ++
    profileOptPart ms catOrder ++ profileWithStage ms catOrder

/-! ## Identity-overlap handler defaults
(src, package `synthetic_identity`, `handleDetectSyntheticIdentity`) -/

/-- Image of the Go struct `synthetic_identity.DetectSyntheticIdentityInput`
(`int` fields become `Int`). -/
structure DetectSyntheticIdentityInput where
  EntityId : String
  EntityConfig : SynthEntityConfig
  PIIRelationships : List PIIRelationship
  MinSharedAttributes : Int
  Limit : Int
deriving DecidableEq, Repr

/-- Observable outcome of `handleDetectSyntheticIdentity`: an error result,
or the read query executed with its parameter map
(`entityId?`, `minSharedAttributes`, `limit`). -/
inductive SynthOutcome
  | errorResult (msg : String)
  | runQuery (query : String) (entityId : Option String) (minShared limit : Int)
deriving DecidableEq, Repr

/-- Go `synthetic_identity.handleDetectSyntheticIdentity`, with the two
service dependencies abstracted to presence flags and the bound arguments
given directly. -/
def handleDetectSyntheticIdentity (analyticsPresent dbPresent : Bool)
    (args : DetectSyntheticIdentityInput) : SynthOutcome :=
  if ¬analyticsPresent then .errorResult "Analytics service is not initialized"
  else if ¬dbPresent then .errorResult "Database service is not initialized"
  else if args.PIIRelationships = [] then
    .errorResult "piiRelationships parameter is required and cannot be empty. Use get-schema to discover available PII relationships first."
  else if args.EntityConfig.NodeLabel = "" then
    .errorResult "entityConfig.nodeLabel is required. Specify the entity node label to search (e.g., \x27Customer\x27, \x27Person\x27, \x27Account\x27)."
  else if args.EntityConfig.IdProperty = "" then
    .errorResult "entityConfig.idProperty is required. Specify the property name containing the unique identifier (e.g., \x27customerId\x27, \x27personId\x27)."
  else
    let minShared :=
      if args.MinSharedAttributes = 0 then 2 else args.MinSharedAttributes
    let limit := if args.Limit = 0 then 20 else args.Limit
    if args.EntityId ≠ "" then
      .runQuery (buildInvestigationQuery args.EntityConfig args.PIIRelationships)
        (some args.EntityId) minShared limit
    else
      .runQuery (buildDiscoveryQuery args.EntityConfig args.PIIRelationships)
        none minShared limit

/-- The `minSharedAttributes` query parameter of an outcome, if a query ran. -/
def minSharedParamOf : SynthOutcome → Option Int
  | .runQuery _ _ ms _ => some ms
  | .errorResult _ => none

/-- The `limit` query parameter of an outcome, if a query ran. -/
def limitParamOf : SynthOutcome → Option Int
  | .runQuery _ _ _ l => some l
  | .errorResult _ => none

/-! ## Cypher classifier
(src/internal/tools/dynamic/handler.go, `validateQueryMode`) -/

/-- The write keywords of `validateQueryMode` (handler.go line 116), in the
order the Go loop scans them. -/
def writeKeywords : List String :=
  ["CREATE ", "MERGE ", "DELETE ", "REMOVE ", "SET ",
   "DROP ", "DETACH DELETE", "CALL \x7b"]

/-- Go `dynamic.validateQueryMode`: `none` means the query is accepted for
the given execution mode, `some msg` is the returned error. -/
def validateQueryMode (query mode : String) : Option String :=
  let normalizedQuery := goToUpper (goTrimSpace query)
  if mode = "read" then
    writeKeywords.findSome? (fun kw =>
      if strContains normalizedQuery kw then
        some ("write operation detected in read-only tool: " ++ kw)
      else none)
  else none

/-- Modelled from the spec (claim C1 wording, §4.2 of the specification):
the classifier is claimed to match one of the seven listed write tokens in
the upper-cased trimmed query, and in addition to classify every explicit
administrative command — a query beginning with `SHOW`, `CREATE INDEX` and
the like — as non-read.  (`CREATE INDEX …` already contains the listed token
`CREATE `, so the `SHOW` clause is the distinguishing administrative case.) -/
def claimIsWriteQuery (query : String) : Bool :=
  let nq := goToUpper (goTrimSpace query)
  (["CREATE ", "MERGE ", "DELETE ", "REMOVE ", "SET ",
    "DROP ", "DETACH DELETE"].any (fun kw => strContains nq kw)) ||
    strStartsWith nq "SHOW"

/-! ## Tool results -/

/-- An MCP tool result: success text (`mcp.NewToolResultText`) or error text
(`mcp.NewToolResultError`). -/
inductive ToolResult
  | text (s : String)
  | errText (s : String)
deriving DecidableEq, Repr

/-- Whether a tool result is an error result. -/
def ToolResult.isError : ToolResult → Bool
  | .text _ => false
  | .errText _ => true

/-! ## Schema extractor, empty-database branch
(src/internal/tools/cypher/get_schema_handler.go, `handleGetSchema`) -/

/-- A driver value as inspected by the Go type switch (only the `int64` case
is distinguished by the code under analysis). -/
inductive GoVal
  | i64 (n : Int)
  | other
deriving DecidableEq, Repr

/-- A record of the node-count verification query: the value under the
`nodeCount` key, if present. -/
structure CountRec where
  nodeCountVal : Option GoVal
deriving DecidableEq, Repr

/-- Outcome of `handleGetSchema`: a returned tool result, or continuation
into the schema-processing path (visualization non-empty). -/
inductive GetSchemaOutcome
  | res (r : ToolResult)
  | proceeds
deriving DecidableEq, Repr

/-- Whether a `handleGetSchema` outcome is an error result. -/
def GetSchemaOutcome.isErrorRes : GetSchemaOutcome → Bool
  | .res r => r.isError
  | .proceeds => false

/-- The empty-database message of `handleGetSchema` (line 88 of the Go file),
naming the configured database. -/
def emptySchemaMessage (dbName : String) : String :=
  "The get-schema tool executed successfully; however, since the Neo4j database \x27" ++
    dbName ++ "\x27 contains no data, no schema information was returned."

/-- Go `cypher.handleGetSchema` up to the point where a non-empty
visualization hands over to schema processing (`.proceeds`).  The service
dependencies are presence flags; the visualization result is abstracted to
its record list; `countOutcome` is the result of the verification query. -/
def handleGetSchema (dbPresent analyticsPresent : Bool) (dbName : String)
    (vis : List Unit) (countOutcome : Except String (List CountRec)) :
    GetSchemaOutcome :=
  if ¬dbPresent then .res (.errText "database service is not initialized")
  else if ¬analyticsPresent then
    .res (.errText "analytics service is not initialized")
  else if vis.length = 0 then
    match countOutcome with
    | .error e =>
      .res (.errText
        ("schema visualization returned no records and verification failed: " ++ e))
    | .ok countRecords =>
      match countRecords.head? with
      | some r =>
        match r.nodeCountVal with
        | some (.i64 n) =>
          if 0 < n then
            .res (.errText ("Internal error: database \x27" ++ dbName ++
              "\x27 contains " ++ toString n ++
              " nodes but schema visualization failed. This may indicate a schema introspection issue."))
          else .res (.text (emptySchemaMessage dbName))
        | _ => .res (.text (emptySchemaMessage dbName))
      | none => .res (.text (emptySchemaMessage dbName))
  else .proceeds

/-! ## YAML tool registry
(src, package `dynamic`, guidance generation: `parseToolConfig`,
`validateParameters`, `deriveCategoryFromPath`, `walkEmbeddedConfigs`,
`walkOSFilesystem`, `WalkConfigDirectory`, `LoadTools`) -/

/-- Image of the Go struct `dynamic.ParameterConfig`; the `interface{}`
default value is modelled by its rendered form, if present. -/
structure ParameterConfig where
  Name : String
  /-- The Go field is named `Type` (a Lean keyword). -/
  ParamType : String
  Description : String
  Default : Option String
  Required : Bool
deriving DecidableEq, Repr

/-- Image of the Go struct `dynamic.PatternConfig`. -/
structure PatternConfig where
  Entity : String
  SharedElements : List String
  Anomaly : String
deriving DecidableEq, Repr

/-- Image of the Go struct `dynamic.ReferenceSchemaConfig`. -/
structure ReferenceSchemaConfig where
  Labels : List String
  Relationships : List String
deriving DecidableEq, Repr

/-- Image of the Go struct `dynamic.ToolConfig` (guidance generation);
`Category` is derived from the path, never parsed from YAML. -/
structure ToolConfig where
  Name : String
  Description : String
  Intent : String
  ExpectedPatterns : List PatternConfig
  ReferenceCypher : String
  ReferenceSchema : Option ReferenceSchemaConfig
  Parameters : List ParameterConfig
  Category : String
deriving DecidableEq, Repr

/-- The allowed parameter types of `dynamic.validateParameters`. -/
def validTypes : List String :=
  ["string", "integer", "number", "boolean", "array", "object"]

/-- Loop of Go `dynamic.validateParameters`, carrying the index and the set
of names seen so far. -/
def validateParametersAux : List ParameterConfig → Nat → List String → Option String
  | [], _, _ => none
  | p :: rest, i, seen =>
    if p.Name = "" then
      some ("parameter[" ++ toString i ++ "] name is required")
    else if p.Name ∈ seen then
      some ("duplicate parameter name \x27" ++ p.Name ++ "\x27")
    else if p.ParamType ≠ "" ∧ p.ParamType ∉ validTypes then
      some ("parameter \x27" ++ p.Name ++ "\x27 has invalid type \x27" ++
        p.ParamType ++ "\x27")
    else validateParametersAux rest (i + 1) (p.Name :: seen)

/-- Go `dynamic.validateParameters` (an error message, or `none` if valid). -/
def validateParameters (params : List ParameterConfig) : Option String :=
  validateParametersAux params 0 []

/-- Scan of Go `dynamic.deriveCategoryFromPath`: the segment following the
first `config` segment that has a successor. -/
def findAfterConfig : List String → Option String
  | [] => none
  | [_] => none
  | p :: next :: rest =>
    if p = "config" then some next else findAfterConfig (next :: rest)

/-- Go `dynamic.deriveCategoryFromPath`. -/
def deriveCategoryFromPath (path : String) : String :=
  let parts := splitSlash path
  match findAfterConfig parts with
  | some c => c
  | none =>
    match parts with
    | p0 :: p1 :: rest => if p0 = "tools" ∧ rest ≠ [] then p1 else p0
    | _ => "general"

/-- Go `dynamic.parseToolConfig`: the YAML decoding itself is external, so
the already-decoded descriptor (or `none` for a YAML decode failure) is the
input; the validation and category derivation follow the source. -/
def parseToolConfig (content : Option ToolConfig) (path : String) :
    Except String ToolConfig :=
  match content with
  | none => .error "failed to parse YAML"
  | some c0 =>
    let c := { c0 with Category := deriveCategoryFromPath path }
    if c.Name = "" then
      .error ("tool name is required in config file: " ++ path)
    else if c.Description = "" then
      .error ("tool description is required in config file: " ++ path)
    else
      match validateParameters c.Parameters with
      | some e => .error ("invalid parameters in " ++ path ++ ": " ++ e)
      | none => .ok c

/-- Whether an `Except` is a success. -/
def exIsOk {α : Type} : Except String α → Bool
  | .ok _ => true
  | .error _ => false

/-- A file visited by a config walk: its path (relative, slash-separated),
its base name, and its decoded YAML content (`none` = YAML decode failure). -/
structure FSEntry where
  path : String
  name : String
  content : Option ToolConfig
deriving DecidableEq, Repr

/-- Whether a file name has a `.yaml` or `.yml` extension. -/
def isYamlFile (name : String) : Bool :=
  strEndsWith name ".yaml" || strEndsWith name ".yml"

/-- The shared walk loop of `walkEmbeddedConfigs` / `walkOSFilesystem`: visits
entries in order, skips non-YAML files, parses the rest, and — exactly as the
Go walk callbacks, which return the parse error — aborts the whole walk at
the first parse failure.  Returns the result together with the log lines. -/
def walkEntriesAux (parseFailLog : String) :
    List FSEntry → Except String (List ToolConfig) × List String
  | [] => (.ok [], [])
  | e :: rest =>
    if ¬isYamlFile e.name then walkEntriesAux parseFailLog rest
    else
      match parseToolConfig e.content e.path with
      | .error err => (.error err, [parseFailLog ++ e.path])
      | .ok cfg =>
        let r := walkEntriesAux parseFailLog rest
        (match r.1 with
         | .ok cfgs => .ok (cfg :: cfgs)
         | .error er => .error er,
         ("loaded tool config path=" ++ e.path) :: r.2)

/-- Go `dynamic.walkEmbeddedConfigs`; `embedded = none` models an absent or
empty embedded filesystem (the `fs.Stat` probe fails). -/
def walkEmbeddedConfigs (embedded : Option (List FSEntry)) :
    Except String (List ToolConfig) × List String :=
  match embedded with
  | none => (.error "embedded FS not available", [])
  | some entries =>
    let r := walkEntriesAux "failed to parse embedded tool config path=" entries
    match r.1 with
    | .error e => (.error ("failed to walk embedded configs: " ++ e), r.2)
    | .ok cfgs => (.ok cfgs, r.2)

/-- Go `dynamic.walkOSFilesystem`; a missing directory yields an empty result
without error. -/
def walkOSFilesystem (dirExists : Bool) (entries : List FSEntry) :
    Except String (List ToolConfig) × List String :=
  if ¬dirExists then (.ok [], ["config directory does not exist"])
  else
    let r := walkEntriesAux "failed to parse tool config path=" entries
    match r.1 with
    | .error e => (.error ("failed to walk config directory: " ++ e), r.2)
    | .ok cfgs => (.ok cfgs, r.2)

/-- Go `dynamic.WalkConfigDirectory`: embedded filesystem first, falling back
to the OS filesystem when the embedded walk errors or finds nothing. -/
def WalkConfigDirectory (embedded : Option (List FSEntry)) (dirExists : Bool)
    (osEntries : List FSEntry) : Except String (List ToolConfig) × List String :=
  let r := walkEmbeddedConfigs embedded
  match r.1 with
  | .ok cfgs =>
    if cfgs.length > 0 then r else walkOSFilesystem dirExists osEntries
  | .error _ => walkOSFilesystem dirExists osEntries

/-- Go `(*ToolRegistry).LoadTools` composed with
`(*Neo4jMCPServer).loadDynamicTools` (interfaces.go): a load error yields an
empty dynamic tool list. -/
def loadDynamicTools (embedded : Option (List FSEntry)) (dirExists : Bool)
    (osEntries : List FSEntry) : List ToolConfig :=
  match (WalkConfigDirectory embedded dirExists osEntries).1 with
  | .ok cfgs => cfgs
  | .error _ => []

/-! ## YAML-backed guidance handler
(src, package `dynamic`, guidance generation: `handleDynamicTool`,
`buildEnrichedDescription`) and the profile handler gates
(src, package `customer_profile`, `handleGetCustomerProfile`) -/

/-- Rendering of a Go `%v` of a string slice: `[a b c]`. -/
def goFmtStrList (xs : List String) : String := "[" ++ goJoin " " xs ++ "]"

/-- Go `dynamic.buildEnrichedDescription` (guidance generation). -/
def buildEnrichedDescription (config : ToolConfig) : String :=
  config.Description ++
    (if config.Intent ≠ "" then "\n\n## Intent\n" ++ config.Intent else "") ++
    (if config.ExpectedPatterns ≠ [] then
      "\n\n## Expected Patterns\n" ++
        strConcat (config.ExpectedPatterns.map (fun p =>
          "- **" ++ p.Entity ++ "**: " ++ p.Anomaly ++ "\n" ++
            (if p.SharedElements ≠ [] then
              "  Shared elements: " ++ goFmtStrList p.SharedElements ++ "\n"
            else "")))
    else "") ++
    (if config.ReferenceCypher ≠ "" then
      "\n\n## Reference Cypher\n```cypher\n" ++ config.ReferenceCypher ++
        "\n```\n"
    else "") ++
    (match config.ReferenceSchema with
     | none => ""
     | some rs =>
       "\n\n## Reference Schema\n" ++
         (if rs.Labels ≠ [] then
           "- Labels: " ++ goFmtStrList rs.Labels ++ "\n" else "") ++
         (if rs.Relationships ≠ [] then
           "- Relationships: " ++ goFmtStrList rs.Relationships ++ "\n"
         else "")) ++
    (if config.Parameters ≠ [] then
      "\n\n## Parameters\n" ++
        strConcat (config.Parameters.map (fun p =>
          "- `$" ++ p.Name ++ "` (" ++ p.ParamType ++ ")" ++
            (match p.Default with
             | some d => " [default: " ++ d ++ "]"
             | none => "") ++
            (if p.Description ≠ "" then ": " ++ p.Description else "") ++ "\n"))
    else "")

/-- Go `dynamic.handleDynamicTool` of the guidance generation: the analytics
event is emitted only when the service is present, and the handler returns
the enriched description unconditionally — it never returns an error result,
with or without the analytics service. -/
def handleDynamicToolGuide (analyticsPresent : Bool) (config : ToolConfig) :
    ToolResult :=
  .text (buildEnrichedDescription config)

/-- Image of the Go struct `customer_profile.GetCustomerProfileInput`. -/
structure GetCustomerProfileInput where
  EntityId : String
  EntityConfig : EntityConfig
  AttributeMappings : List AttributeMapping
deriving DecidableEq, Repr

/-- Observable outcome of `handleGetCustomerProfile`. -/
inductive ProfileOutcome
  | errorResult (msg : String)
  | runQuery (query : String) (entityId : String)
deriving DecidableEq, Repr

/-- Go `customer_profile.handleGetCustomerProfile`, dependencies abstracted
to presence flags, map iteration orders passed through to the query builder. -/
def handleGetCustomerProfile (analyticsPresent dbPresent : Bool)
    (args : GetCustomerProfileInput) (catOrder : List String)
    (keyOrder : String → List String) : ProfileOutcome :=
  if ¬analyticsPresent then .errorResult "Analytics service is not initialized"
  else if ¬dbPresent then .errorResult "Database service is not initialized"
  else if args.EntityId = "" then .errorResult "entityId parameter is required"
  else if args.EntityConfig.NodeLabel = "" then
    .errorResult "entityConfig.nodeLabel is required. Specify the entity node label (e.g., \x27Customer\x27, \x27Person\x27, \x27Account\x27)."
  else if args.EntityConfig.IdProperty = "" then
    .errorResult "entityConfig.idProperty is required. Specify the property name containing the unique identifier (e.g., \x27customerId\x27, \x27personId\x27)."
  else if args.AttributeMappings = [] then
    .errorResult "attributeMappings parameter is required and cannot be empty. Use get-schema to discover available attributes first."
  else
    .runQuery
      (buildCustomerProfileQuery args.EntityConfig args.AttributeMappings
        catOrder keyOrder)
      args.EntityId

/-! ## Dispatcher, read-only filter and the execution-generation dynamic
handler (src/internal/analytics/interfaces.go `filterWriteTools`,
`loadDynamicTools`, `getEnabledTools`;
src/internal/tools/dynamic/handler.go `handleDynamicTool`) -/

/-- Image of the Go struct `dynamic.ExecutionConfig` (execution generation). -/
structure ExecutionConfig where
  Mode : String
  Timeout : Int
deriving DecidableEq, Repr

/-- Image of the Go struct `dynamic.ToolConfig` of the execution generation
(handler.go): metadata fields inlined. -/
structure ExecToolConfig where
  Name : String
  Title : String
  Description : String
  Execution : Option ExecutionConfig
  MetadataCategory : String
  MetadataReadOnly : Bool
  MetadataIdempotent : Bool
  MetadataDestructive : Bool
deriving DecidableEq, Repr

/-- Observable action of the execution-generation `dynamic.handleDynamicTool`:
an error result, a documentation text, or the query dispatched to
`ExecuteReadQuery` / `ExecuteWriteQuery`. -/
inductive DynAction
  | errRes (msg : String)
  | textRes (msg : String)
  | execReadQ (q : String)
  | execWriteQ (q : String)
deriving DecidableEq, Repr

/-- Go `dynamic.handleDynamicTool` (execution generation, handler.go):
analytics gate, documentation tools, database gate, query validation by
`validateQueryMode`, then read or write execution by declared mode. -/
def handleDynamicTool (analyticsPresent dbPresent : Bool)
    (config : ExecToolConfig) (query : String) : DynAction :=
  if ¬analyticsPresent then .errRes "Analytics service is not initialized"
  else
    match config.Execution with
    | none => .textRes config.Description
    | some ex =>
      if ¬dbPresent then .errRes "Database service is not initialized"
      else if query = "" then .errRes "query parameter is required"
      else
        match validateQueryMode query ex.Mode with
        | some e => .errRes e
        | none => if ex.Mode = "read" then .execReadQ query else .execWriteQ query

/-- The dispatcher categories of interfaces.go. -/
inductive ToolCategory
  | cypherCat | gdsCat | fraudCat | schemaCat | dataCat | dynamicCat
deriving DecidableEq, Repr

/-- Image of the Go struct `server.ToolDefinition`; for dynamic tools the
originating config is kept so the registered handler can be analysed. -/
structure ToolDefinition where
  category : ToolCategory
  name : String
  readonly : Bool
  dynConfig : Option ExecToolConfig
deriving DecidableEq, Repr

/-- Go `(*Neo4jMCPServer).getAllToolsDefs` (interfaces.go): the five
hard-coded tools followed by the dynamic tools, which `loadDynamicTools`
marks `readonly: true` unconditionally, whatever their execution mode. -/
def getAllToolsDefs (dynConfigs : List ExecToolConfig) : List ToolDefinition :=
  [⟨.schemaCat, "get-schema", true, none⟩,
   ⟨.cypherCat, "read-cypher", true, none⟩,
   ⟨.cypherCat, "write-cypher", false, none⟩,
   ⟨.gdsCat, "list-gds-procedures", true, none⟩,
   ⟨.schemaCat, "get-data-models", true, none⟩] ++
    dynConfigs.map (fun c => ⟨.dynamicCat, c.Name, true, some c⟩)

/-- Go `server.filterWriteTools`. -/
def filterWriteTools (tools : List ToolDefinition) : List ToolDefinition :=
  tools.filter (fun t => t.readonly)

/-- Go `server.filterGDSTools`. -/
def filterGDSTools (tools : List ToolDefinition) : List ToolDefinition :=
  tools.filter (fun t => t.category ≠ .gdsCat)

/-- Go `(*Neo4jMCPServer).getEnabledTools`: read-only and GDS filters applied
in order over the full tool table. -/
def getEnabledTools (readOnly gdsInstalled : Bool)
    (dynConfigs : List ExecToolConfig) : List ToolDefinition :=
  let defs := getAllToolsDefs dynConfigs
  let defs := if readOnly then filterWriteTools defs else defs
  if ¬gdsInstalled then filterGDSTools defs else defs

/-! ## Theorems -/

theorem chPre_iff {p s : List Char} : chPre p s = true ↔ ∃ t, s = p ++ t := by
  induction p generalizing s with
  | nil => simp [chPre]
  | cons a p' ih =>
    cases s with
    | nil =>
      simp only [chPre]
      constructor
      · intro h; cases h
      · rintro ⟨t, ht⟩; cases ht
    | cons b s' =>
      simp only [chPre, Bool.and_eq_true, beq_iff_eq]
      constructor
      · rintro ⟨rfl, h⟩
        obtain ⟨t, rfl⟩ := ih.mp h
        exact ⟨t, rfl⟩
      · rintro ⟨t, ht⟩
        injection ht with h1 h2
        exact ⟨h1.symm, ih.mpr ⟨t, h2⟩⟩

theorem chSub_iff {p s : List Char} : chSub p s = true ↔ ∃ u v, s = u ++ p ++ v := by
  induction s with
  | nil =>
    simp only [chSub, chPre_iff]
    constructor
    · rintro ⟨t, ht⟩
      exact ⟨[], t, by simpa using ht⟩
    · rintro ⟨u, v, huv⟩
      have hu : u = [] := by
        cases u with
        | nil => rfl
        | cons a t => simp at huv
      subst hu
      exact ⟨v, by simpa using huv⟩
  | cons c s' ih =>
    simp only [chSub, Bool.or_eq_true, chPre_iff, ih]
    constructor
    · rintro (⟨t, ht⟩ | ⟨u, v, huv⟩)
      · exact ⟨[], t, by simpa using ht⟩
      · exact ⟨c :: u, v, by simp [huv]⟩
    · rintro ⟨u, v, huv⟩
      cases u with
      | nil => exact Or.inl ⟨v, by simpa using huv⟩
      | cons a u' =>
        injection huv with h1 h2
        exact Or.inr ⟨u', v, h2⟩

theorem chSub_trans {q p s : List Char} (h1 : chSub q p = true)
    (h2 : chSub p s = true) : chSub q s = true := by
  obtain ⟨a, b, rfl⟩ := chSub_iff.mp h1
  obtain ⟨u, v, rfl⟩ := chSub_iff.mp h2
  exact chSub_iff.mpr ⟨u ++ a, b ++ v, by simp⟩

theorem chSub_pair {x y : Char} {s : List Char} (h : chSub [x, y] s = true) :
    (x, y) ∈ chPairs s := by
  induction s with
  | nil => simp [chSub, chPre] at h
  | cons c s' ih =>
    simp only [chSub, Bool.or_eq_true] at h
    rcases h with h | h
    · cases s' with
      | nil => simp [chPre] at h
      | cons d t =>
        simp only [chPre, Bool.and_eq_true, beq_iff_eq] at h
        obtain ⟨rfl, rfl, -⟩ := h
        simp [chPairs]
    · have hm := ih h
      cases s' with
      | nil => simp [chPairs] at hm
      | cons d t => exact List.mem_cons_of_mem _ hm

theorem chPairs_mem_right {x y : Char} {s : List Char}
    (h : (x, y) ∈ chPairs s) : y ∈ s := by
  induction s with
  | nil => simp [chPairs] at h
  | cons c s' ih =>
    cases s' with
    | nil => simp [chPairs] at h
    | cons d t =>
      simp only [chPairs, List.mem_cons] at h
      rcases h with h | h
      · injection h with h1 h2
        subst h2
        exact List.mem_cons_of_mem _ (List.mem_cons_self _ _)
      · exact List.mem_cons_of_mem _ (ih h)

theorem chPairs_append_cases {x y : Char} {a b : List Char}
    (h : (x, y) ∈ chPairs (a ++ b)) :
    (x, y) ∈ chPairs a ∨ (x, y) ∈ chPairs b ∨
      (a.getLast? = some x ∧ b.head? = some y) := by
  induction a with
  | nil => exact Or.inr (Or.inl (by simpa using h))
  | cons a0 tl ih =>
    cases tl with
    | nil =>
      cases b with
      | nil => simp [chPairs] at h
      | cons b0 bt =>
        simp only [List.singleton_append, chPairs, List.mem_cons] at h
        rcases h with h | h
        · injection h with h1 h2
          exact Or.inr (Or.inr ⟨by simp [h1], by simp [h2]⟩)
        · exact Or.inr (Or.inl h)
    | cons a1 at' =>
      simp only [List.cons_append, chPairs, List.mem_cons] at h
      rcases h with h | h
      · injection h with h1 h2
        subst h1; subst h2
        exact Or.inl (by simp [chPairs])
      · have h' : (x, y) ∈ chPairs ((a1 :: at') ++ b) := by simpa using h
        rcases ih h' with h1 | h1 | ⟨h1, h2⟩
        · exact Or.inl (List.mem_cons_of_mem _ h1)
        · exact Or.inr (Or.inl h1)
        · exact Or.inr (Or.inr ⟨by simpa using h1, h2⟩)

theorem strData_append (a b : String) : (a ++ b).data = a.data ++ b.data := rfl

theorem TPSafe.append {a b : String} (ha : TPSafe a) (hb : TPSafe b) :
    TPSafe (a ++ b) := by
  obtain ⟨ha1, ha2⟩ := ha
  obtain ⟨hb1, hb2⟩ := hb
  constructor
  · intro h
    rw [strData_append] at h
    rcases chPairs_append_cases h with h | h | ⟨-, h2⟩
    · exact ha1 h
    · exact hb1 h
    · exact hb2 h2
  · rw [strData_append]
    cases hd : a.data with
    | nil => simpa using hb2
    | cons c t =>
      simp only [List.cons_append, List.head?_cons]
      rw [hd] at ha2
      simpa using ha2

theorem ParenFree.tpSafe {s : String} (h : ParenFree s) : TPSafe s := by
  constructor
  · intro hp
    exact h (chPairs_mem_right hp)
  · intro hh
    exact h (List.mem_of_mem_head? (by simp [hh]))

theorem tpSafe_empty : TPSafe "" := by decide

theorem tpSafe_goJoin {sep : String} {l : List String} (hsep : TPSafe sep)
    (h : ∀ x ∈ l, TPSafe x) : TPSafe (goJoin sep l) := by
  induction l with
  | nil => exact tpSafe_empty
  | cons x t ih =>
    cases t with
    | nil => exact h x (List.mem_cons_self _ _)
    | cons y t' =>
      have hx := h x (List.mem_cons_self _ _)
      have hrest : TPSafe (goJoin sep (y :: t')) :=
        ih (fun z hz => h z (List.mem_cons_of_mem _ hz))
      exact (hx.append hsep).append hrest

theorem tpSafe_strConcat {l : List String} (h : ∀ x ∈ l, TPSafe x) :
    TPSafe (strConcat l) := by
  induction l with
  | nil => exact tpSafe_empty
  | cons x t ih =>
    exact (h x (List.mem_cons_self _ _)).append
      (ih (fun z hz => h z (List.mem_cons_of_mem _ hz)))

/-- A `TPSafe` string contains no occurrence of `collect(`. -/
theorem TPSafe.noCollect {s : String} (h : TPSafe s) :
    strContains s "collect(" = false := by
  by_contra hc
  have hc' : chSub "collect(".data s.data = true := by
    revert hc; unfold strContains; cases chSub "collect(".data s.data <;> simp
  have ht : chSub ['t', '('] s.data = true :=
    chSub_trans (q := ['t', '(']) (by decide) hc'
  exact h.1 (chSub_pair ht)

/-! ## Variable numbering of `OptionalMatchBuilder` (claim C9) -/

theorem attrNamesFrom_of_no_path (ops : List BuilderOp) :
    ∀ b : OptionalMatchBuilder, hasPathOp ops = false →
      attrNamesFrom b ops =
        (List.range (countAttrOps ops)).map
          (fun i => "attr" ++ toString (b.varCounter + i)) := by
  induction ops with
  | nil => intro b _; rfl
  | cons op rest ih =>
    intro b h
    cases op with
    | attrOp sv m =>
      have h' : hasPathOp rest = false := by simpa [hasPathOp] using h
      simp only [attrNamesFrom, AddAttributeMatch, countAttrOps,
        List.range_succ_eq_map, List.map_cons, List.map_map]
      rw [ih _ h']
      simp only [Nat.add_zero]
      congr 1
      apply List.map_congr_left
      intro i _
      have harith : b.varCounter + 1 + i = b.varCounter + Nat.succ i := by omega
      simp [Function.comp, harith]
    | pathOp sv p => simp [hasPathOp] at h
    | customOp c =>
      have h' : hasPathOp rest = false := by simpa [hasPathOp] using h
      show attrNamesFrom (AddCustomMatch b c) rest = _
      simpa [AddCustomMatch] using ih (AddCustomMatch b c) h'

/-- Claim C9, amended: on a single builder instance the names returned by
successive `AddAttributeMatch` calls are `attr0, attr1, …` in call order
provided no `AddPathMatch` call is interleaved (`AddCustomMatch` calls may be
interleaved freely, as they do not advance the shared counter); an
interleaved `AddPathMatch` advances the same counter and makes the attribute
numbering skip (see the counterexample). -/
theorem optionalMatchBuilder_attr_numbering (ops : List BuilderOp)
    (h : hasPathOp ops = false) :
    attrNames ops =
      (List.range (countAttrOps ops)).map (fun i => "attr" ++ toString i) := by
  have := attrNamesFrom_of_no_path ops NewOptionalMatchBuilder h
  simpa [attrNames, NewOptionalMatchBuilder] using this

/-- Witness for the amended C9 theorem at a concrete op sequence containing an
interleaved `AddCustomMatch`. -/
theorem optionalMatchBuilder_attr_numbering_witness :
    hasPathOp
        [BuilderOp.attrOp "c" ⟨"HAS_EMAIL", "Email", "address", "contact_information", []⟩,
         BuilderOp.customOp "(c)-[:OWNS]->(a:Account)",
         BuilderOp.attrOp "c" ⟨"HAS_PHONE", "Phone", "number", "contact_information", []⟩] = false ∧
      attrNames
        [BuilderOp.attrOp "c" ⟨"HAS_EMAIL", "Email", "address", "contact_information", []⟩,
         BuilderOp.customOp "(c)-[:OWNS]->(a:Account)",
         BuilderOp.attrOp "c" ⟨"HAS_PHONE", "Phone", "number", "contact_information", []⟩] =
        ["attr0", "attr1"] :=
  ⟨by decide,
   optionalMatchBuilder_attr_numbering _ (by decide)⟩

/-- Counterexample to claim C9 as stated: interleaving one `AddPathMatch`
call between two `AddAttributeMatch` calls on the same builder makes the
second attribute variable `attr2`, not `attr1` — the shared `varCounter` is
advanced by `AddPathMatch` as well. -/
theorem optionalMatchBuilder_interleaved_path_counterexample :
    attrNames
        [BuilderOp.attrOp "c" ⟨"HAS_EMAIL", "Email", "address", "contact_information", []⟩,
         BuilderOp.pathOp "c" ⟨"KNOWS", "out", "Person", 1, 3⟩,
         BuilderOp.attrOp "c" ⟨"HAS_PHONE", "Phone", "number", "contact_information", []⟩] =
        ["attr0", "attr2"] ∧
      attrNames
        [BuilderOp.attrOp "c" ⟨"HAS_EMAIL", "Email", "address", "contact_information", []⟩,
         BuilderOp.pathOp "c" ⟨"KNOWS", "out", "Person", 1, 3⟩,
         BuilderOp.attrOp "c" ⟨"HAS_PHONE", "Phone", "number", "contact_information", []⟩] ≠
        ["attr0", "attr1"] := by
  constructor
  · decide
  · decide

/-! ## Partition lemmas: iterating a Go map of grouped mappings visits every
mapping exactly once (used for claim C4) -/

theorem count_keyedFlat {α : Type} [DecidableEq α] (keys : List String)
    (f : String → List α) (a : α) :
    (keyedFlat keys f).count a = (keys.map (fun c => (f c).count a)).sum := by
  induction keys with
  | nil => simp [keyedFlat]
  | cons k t ih => simp [keyedFlat, List.count_append, ih]

theorem count_filter_catOf {α : Type} [DecidableEq α] (ms : List α)
    (catF : α → String) (c : String) (a : α) :
    (ms.filter (fun m => catF m == c)).count a =
      if catF a = c then ms.count a else 0 := by
  induction ms with
  | nil => simp
  | cons m t ih =>
    by_cases hm : catF m = c
    · by_cases ham : a = m
      · subst ham
        simp [List.filter_cons, hm, List.count_cons, ih]
      · simp [List.filter_cons, hm, List.count_cons, ih, ham]
    · by_cases ham : a = m
      · subst ham
        simp [List.filter_cons, hm, List.count_cons, ih]
      · simp [List.filter_cons, hm, List.count_cons, ih, ham]

theorem sum_map_ite_zero (keys : List String) (x : String) (k : Nat)
    (hn : keys.Nodup) :
    (keys.map (fun c => if x = c then k else 0)).sum =
      if x ∈ keys then k else 0 := by
  induction keys with
  | nil => simp
  | cons c t ih =>
    have hn' : t.Nodup := hn.of_cons
    by_cases hx : x = c
    · subst hx
      have hnot : x ∉ t := (List.nodup_cons.mp hn).1
      have hz : (t.map (fun c => if x = c then k else 0)).sum = 0 := by
        rw [ih hn']
        simp [hnot]
      simp [hz]
    · simp [hx, ih hn']

theorem orderedMappings_perm (ms : List AttributeMapping)
    (catOrder : List String) (hn : catOrder.Nodup)
    (hcov : ∀ m ∈ ms, catOf m ∈ catOrder) :
    (orderedMappings ms catOrder).Perm ms := by
  rw [List.perm_iff_count]
  intro a
  rw [orderedMappings, count_keyedFlat]
  simp only [count_filter_catOf]
  rw [sum_map_ite_zero _ _ _ hn]
  by_cases hmem : catOf a ∈ catOrder
  · simp [hmem]
  · have : a ∉ ms := fun ha => hmem (hcov a ha)
    simp [hmem, List.count_eq_zero_of_not_mem this]

/-- Claim C4, amended: for an admissible category iteration order, every
attribute mapping produces exactly one `OPTIONAL MATCH` clause and exactly
one `collect(DISTINCT …)` expression in the `WITH` stage, whose alias is the
category with hyphens replaced by underscores, an underscore, and the
lower-cased target label with a trailing `s`; the alias of a mapping occurs
exactly once among the emitted aliases provided the aliases of the supplied
mappings are pairwise distinct.  When two mappings share a category and a
target label their aliases coincide, and the shared alias is emitted twice
(see the counterexample). -/
theorem profile_one_clause_and_alias_per_mapping
    (ms : List AttributeMapping) (catOrder : List String)
    (hn : catOrder.Nodup) (hcov : ∀ m ∈ ms, catOf m ∈ catOrder) :
    (profileOptClauses ms catOrder).length = ms.length ∧
      (profileWithAliases ms catOrder).Perm (ms.map collectionAliasOf) ∧
      (∀ m ∈ ms, collectionAliasOf m =
        replaceDashes (catOf m) ++ "_" ++ (goToLower m.TargetLabel ++ "s")) ∧
      ((ms.map collectionAliasOf).Nodup →
        ∀ m ∈ ms,
          (profileWithAliases ms catOrder).count (collectionAliasOf m) = 1) := by
  have hperm := orderedMappings_perm ms catOrder hn hcov
  refine ⟨?_, ?_, ?_, ?_⟩
  · simp [profileOptClauses, List.enum_length, hperm.length_eq]
  · exact hperm.map collectionAliasOf
  · intro m _; rfl
  · intro hnd m hm
    have hp : (profileWithAliases ms catOrder).Perm (ms.map collectionAliasOf) :=
      hperm.map collectionAliasOf
    rw [hp.count_eq]
    exact List.count_eq_one_of_mem hnd (List.mem_map_of_mem _ hm)

/-- Witness for the amended C4 theorem at a two-mapping input with distinct
categories, using the insertion-order category iteration. -/
theorem profile_one_clause_and_alias_per_mapping_witness :
    (["contact_information", "identity_documents"] : List String).Nodup ∧
      (∀ m ∈ [(⟨"HAS_EMAIL", "Email", "address", "contact_information", ["verified"]⟩ : AttributeMapping),
              ⟨"HAS_SSN", "SSN", "number", "identity_documents", []⟩],
        catOf m ∈ ["contact_information", "identity_documents"]) ∧
      (profileWithAliases
          [⟨"HAS_EMAIL", "Email", "address", "contact_information", ["verified"]⟩,
           ⟨"HAS_SSN", "SSN", "number", "identity_documents", []⟩]
          ["contact_information", "identity_documents"]).Perm
        ([⟨"HAS_EMAIL", "Email", "address", "contact_information", ["verified"]⟩,
          ⟨"HAS_SSN", "SSN", "number", "identity_documents", []⟩].map collectionAliasOf) := by
  refine ⟨by decide, by decide, ?_⟩
  exact (profile_one_clause_and_alias_per_mapping _ _ (by decide) (by decide)).2.1

/-- Counterexample to claim C4 as stated: two mappings sharing the category
`contact_information` and the target label `Email` receive the same alias
`contact_information_emails`, which is emitted twice in the `WITH` stage
(both in the emitted alias list and textually in the stage string), so the
aggregated collection alias of each of the two mappings is not unique.  The
chosen category iteration order is admissible (no duplicates, covering). -/
theorem profile_duplicate_alias_counterexample :
    (["contact_information"] : List String).Nodup ∧
      (∀ m ∈ [(⟨"HAS_WORK_EMAIL", "Email", "address", "contact_information", []⟩ : AttributeMapping),
              ⟨"HAS_HOME_EMAIL", "Email", "address", "contact_information", []⟩],
        catOf m ∈ ["contact_information"]) ∧
      collectionAliasOf
          (⟨"HAS_WORK_EMAIL", "Email", "address", "contact_information", []⟩ : AttributeMapping) =
        "contact_information_emails" ∧
      (profileWithAliases
          [⟨"HAS_WORK_EMAIL", "Email", "address", "contact_information", []⟩,
           ⟨"HAS_HOME_EMAIL", "Email", "address", "contact_information", []⟩]
          ["contact_information"]).count "contact_information_emails" = 2 ∧
      strOccCount
          (profileWithStage
            [⟨"HAS_WORK_EMAIL", "Email", "address", "contact_information", []⟩,
             ⟨"HAS_HOME_EMAIL", "Email", "address", "contact_information", []⟩]
            ["contact_information"])
          ") as contact_information_emails" = 2 := by
  refine ⟨by decide, by decide, by decide, by decide, by decide⟩

/-! ## Character-level facts about the Go case-mapping helpers -/

theorem goToUpperChar_eq_paren {c : Char} (h : goToUpperChar c = '(') :
    c = '(' := by
  unfold goToUpperChar at h
  split at h
  · rename_i hc
    exfalso
    obtain ⟨h1, h2⟩ := hc
    simp only [Char.le_def] at h1 h2
    have hb1 : 97 ≤ c.toNat := h1
    have hb2 : c.toNat ≤ 122 := h2
    set n := c.toNat - 32 with hn
    have hn1 : 65 ≤ n := by omega
    have hn2 : n ≤ 90 := by omega
    interval_cases n <;> exact absurd h (by decide)
  · exact h

theorem replaceDashes_parenFree {s : String} (h : ParenFree s) :
    ParenFree (replaceDashes s) := by
  intro hm
  simp only [replaceDashes, List.mem_map] at hm
  obtain ⟨c, hc, heq⟩ := hm
  by_cases hd : c = '-'
  · simp [hd] at heq
  · rw [if_neg hd] at heq
    exact h (heq ▸ hc)

theorem strAppend_assoc (a b c : String) : a ++ b ++ c = a ++ (b ++ c) :=
  congrArg String.mk (List.append_assoc a.data b.data c.data)

theorem buildCustomerProfileQuery_decomp (ec : EntityConfig)
    (ms : List AttributeMapping) (catOrder : List String)
    (keyOrder : String → List String) :
    buildCustomerProfileQuery ec ms catOrder keyOrder =
      profilePre ec ms catOrder ++ profileReturnStage ec catOrder keyOrder := by
  simp [buildCustomerProfileQuery, profilePre, profileWithStage, strAppend_assoc]

/-! ## `TPSafe` facts about the generated query sections -/

theorem titleCase_parenFree {s : String} (h : ParenFree s) :
    ParenFree (titleCase s) := by
  unfold titleCase
  cases hd : s.data with
  | nil => decide
  | cons c t =>
    intro hm
    simp only [List.mem_cons] at hm
    rcases hm with hm | hm
    · have : c = '(' := goToUpperChar_eq_paren hm.symm
      exact h (by rw [hd, this]; exact List.mem_cons_self _ _)
    · exact h (by rw [hd]; exact List.mem_cons_of_mem _ hm)

theorem tpSafe_profileBaseStr {ec : EntityConfig}
    (h : ∀ p ∈ ec.BaseProperties, ParenFree p) : TPSafe (profileBaseStr ec) := by
  unfold profileBaseStr
  split
  · decide
  · refine TPSafe.append (TPSafe.append (by decide)
      (tpSafe_goJoin (by decide) ?_)) (by decide)
    intro x hx
    obtain ⟨p, hp, rfl⟩ := List.mem_map.mp hx
    exact TPSafe.append (TPSafe.append (TPSafe.append (by decide)
      ((h p hp).tpSafe)) (by decide)) ((h p hp).tpSafe)

theorem tpSafe_categoryReturnClause {c : String} {keys : List String}
    (hc : ParenFree c) (hk : ∀ k ∈ keys, ParenFree k) :
    TPSafe (buildCategoryReturnClauseFromCollections c keys) := by
  unfold buildCategoryReturnClauseFromCollections
  refine TPSafe.append (TPSafe.append (TPSafe.append (TPSafe.append (by decide)
    hc.tpSafe) (by decide)) (tpSafe_goJoin (by decide) ?_)) (by decide)
  intro x hx
  obtain ⟨k, hkm, rfl⟩ := List.mem_map.mp hx
  exact TPSafe.append (TPSafe.append (TPSafe.append (TPSafe.append
    (TPSafe.append (by decide) ((hk k hkm).tpSafe)) (by decide))
    ((replaceDashes_parenFree hc).tpSafe)) (by decide)) ((hk k hkm).tpSafe)

theorem tpSafe_profileReturnStage {ec : EntityConfig} {catOrder : List String}
    {keyOrder : String → List String}
    (hbp : ∀ p ∈ ec.BaseProperties, ParenFree p)
    (hcat : ∀ c ∈ catOrder, ParenFree c)
    (hkey : ∀ c ∈ catOrder, ∀ k ∈ keyOrder c, ParenFree k) :
    TPSafe (profileReturnStage ec catOrder keyOrder) := by
  unfold profileReturnStage
  refine TPSafe.append (TPSafe.append (TPSafe.append (TPSafe.append (by decide)
    (by decide)) (tpSafe_profileBaseStr hbp)) (tpSafe_strConcat ?_)) (by decide)
  intro x hx
  obtain ⟨c, hc, rfl⟩ := List.mem_map.mp hx
  exact TPSafe.append (by decide)
    (tpSafe_categoryReturnClause (hcat c hc) (hkey c hc))

theorem tpSafe_buildReturnClause {sc : SynthEntityConfig} {v : String}
    (hv : ParenFree v) (hid : ParenFree sc.IdProperty)
    (hdp : ∀ p ∈ sc.DisplayProperties, ParenFree p) :
    TPSafe (buildReturnClause sc v) := by
  unfold buildReturnClause
  refine tpSafe_goJoin (by decide) ?_
  intro x hx
  simp only [List.mem_cons] at hx
  rcases hx with rfl | hx
  · exact TPSafe.append (TPSafe.append (TPSafe.append (TPSafe.append
      (TPSafe.append hv.tpSafe (by decide)) hid.tpSafe) (by decide))
      hv.tpSafe) (by decide)
  · split at hx
    · obtain ⟨p, hp, rfl⟩ := List.mem_map.mp hx
      have hpf : ParenFree p := hdp p (List.mem_of_mem_filter hp)
      exact TPSafe.append (TPSafe.append (TPSafe.append (TPSafe.append
        hv.tpSafe (by decide)) hpf.tpSafe) (by decide))
        (TPSafe.append hv.tpSafe (titleCase_parenFree hpf).tpSafe)
    · simp only [List.mem_singleton] at hx
      subst hx
      exact TPSafe.append (TPSafe.append (TPSafe.append (TPSafe.append
        (by decide) hv.tpSafe) (by decide)) hv.tpSafe) (by decide)

theorem tpSafe_invReturnStage {sc : SynthEntityConfig}
    (hid : ParenFree sc.IdProperty)
    (hdp : ∀ p ∈ sc.DisplayProperties, ParenFree p) :
    TPSafe (invReturnStage sc) := by
  unfold invReturnStage
  exact TPSafe.append (TPSafe.append (by decide)
    (tpSafe_buildReturnClause (by decide) hid hdp)) (by decide)

theorem tpSafe_discReturnStage {sc : SynthEntityConfig}
    (hid : ParenFree sc.IdProperty)
    (hdp : ∀ p ∈ sc.DisplayProperties, ParenFree p) :
    TPSafe (discReturnStage sc) := by
  unfold discReturnStage
  exact TPSafe.append (TPSafe.append (TPSafe.append (TPSafe.append (by decide)
    (tpSafe_buildReturnClause (by decide) hid hdp)) (by decide))
    (tpSafe_buildReturnClause (by decide) hid hdp)) (by decide)

/-- Claim C3: in every query emitted by the schema-aware profile tool
(`buildCustomerProfileQuery`, any entity configuration, any mapping list and
any map iteration orders) and by the identity-overlap tool
(`buildInvestigationQuery` / `buildDiscoveryQuery`, any entity configuration
and any non-empty PII relationship list), the `RETURN` section contains no
`collect(` occurrence at all — in particular it never combines a
`collect(...)` with a bare `var.prop` — and each query splits as the part
holding the `WITH`-stage aggregations followed by that `RETURN` section.
Caller-supplied identifier strings are assumed not to contain the character
`(` (they name labels, properties and categories). -/
theorem emitted_return_clauses_no_collect
    (ec : EntityConfig) (ms : List AttributeMapping)
    (catOrder : List String) (keyOrder : String → List String)
    (sc : SynthEntityConfig) (pii : List PIIRelationship)
    (hbp : ∀ p ∈ ec.BaseProperties, ParenFree p)
    (hcat : ∀ c ∈ catOrder, ParenFree c)
    (hkey : ∀ c ∈ catOrder, ∀ k ∈ keyOrder c, ParenFree k)
    (hid : ParenFree sc.IdProperty)
    (hdp : ∀ p ∈ sc.DisplayProperties, ParenFree p)
    (hpii : pii ≠ []) :
    buildCustomerProfileQuery ec ms catOrder keyOrder =
        profilePre ec ms catOrder ++ profileReturnStage ec catOrder keyOrder ∧
      strContains (profileReturnStage ec catOrder keyOrder) "collect(" = false ∧
      buildInvestigationQuery sc pii = invPre sc pii ++ invReturnStage sc ∧
      strContains (invReturnStage sc) "collect(" = false ∧
      buildDiscoveryQuery sc pii = discPre sc pii ++ discReturnStage sc ∧
      strContains (discReturnStage sc) "collect(" = false :=
  ⟨buildCustomerProfileQuery_decomp ec ms catOrder keyOrder,
   (tpSafe_profileReturnStage hbp hcat hkey).noCollect,
   rfl,
   (tpSafe_invReturnStage hid hdp).noCollect,
   rfl,
   (tpSafe_discReturnStage hid hdp).noCollect⟩

/-- Witness for the C3 theorem at the concrete inputs of the specification
examples (profile: one email mapping; overlap: email and phone PII). -/
theorem emitted_return_clauses_no_collect_witness :
    strContains
        (profileReturnStage ⟨"Customer", "customerId", ["firstName", "lastName"]⟩
          ["contact_information"]
          (fun c => if c = "contact_information" then ["emails"] else []))
        "collect(" = false ∧
      strContains
        (invReturnStage ⟨"Customer", "customerId", ["firstName"]⟩)
        "collect(" = false ∧
      strContains
        (discReturnStage ⟨"Customer", "customerId", ["firstName"]⟩)
        "collect(" = false := by
  have h := emitted_return_clauses_no_collect
    ⟨"Customer", "customerId", ["firstName", "lastName"]⟩
    [⟨"HAS_EMAIL", "Email", "address", "contact_information", ["verified"]⟩]
    ["contact_information"]
    (fun c => if c = "contact_information" then ["emails"] else [])
    ⟨"Customer", "customerId", ["firstName"]⟩
    [⟨"HAS_EMAIL", "Email", "address"⟩, ⟨"HAS_PHONE", "Phone", "number"⟩]
    (by intro p hp; fin_cases hp <;> decide)
    (by intro c hc; fin_cases hc <;> decide)
    (by intro c hc; fin_cases hc <;> intro k hk <;> (simp at hk; subst hk; decide))
    (by decide)
    (by intro p hp; fin_cases hp <;> decide)
    (by decide)
  exact ⟨h.2.1, h.2.2.2.1, h.2.2.2.2.2⟩

/-- Claim C7, amended: in every emitted profile query the `RETURN` map opens
with the `base_details` key (before every category object); within a category
the collection keys are rendered in the Go map iteration order, which is
unspecified and need not be the order the mappings were supplied in (see the
counterexample). -/
theorem profile_base_details_first (ec : EntityConfig)
    (ms : List AttributeMapping) (catOrder : List String)
    (keyOrder : String → List String) :
    buildCustomerProfileQuery ec ms catOrder keyOrder =
        profilePre ec ms catOrder ++ profileReturnStage ec catOrder keyOrder ∧
      ∃ rest, profileReturnStage ec catOrder keyOrder =
        "RETURN \x7b\n  base_details: " ++ rest :=
  ⟨buildCustomerProfileQuery_decomp ec ms catOrder keyOrder,
   ⟨profileBaseStr ec ++
      strConcat (catOrder.map (fun c =>
        ",\n" ++ buildCategoryReturnClauseFromCollections c (keyOrder c))) ++
      "\n\x7d as entityProfile", rfl⟩⟩

/-- Counterexample to claim C7 as stated: two `contact_information` mappings
are supplied with keys `emails` then `phones`, yet under the admissible
reversed key iteration order (a permutation of the category key set, as Go
map iteration allows) the `RETURN` category object renders `phones` before
`emails`: the collection keys do not follow the supply order. -/
theorem profile_category_key_order_counterexample :
    ([⟨"HAS_EMAIL", "Email", "address", "contact_information", []⟩,
      (⟨"HAS_PHONE", "Phone", "number", "contact_information", []⟩ : AttributeMapping)].map
        collectionKeyOf) = ["emails", "phones"] ∧
      (["phones", "emails"] : List String).Perm
        (categoryKeys "contact_information"
          [⟨"HAS_EMAIL", "Email", "address", "contact_information", []⟩,
           ⟨"HAS_PHONE", "Phone", "number", "contact_information", []⟩]) ∧
      (["contact_information"] : List String) =
        profileCats
          [⟨"HAS_EMAIL", "Email", "address", "contact_information", []⟩,
           ⟨"HAS_PHONE", "Phone", "number", "contact_information", []⟩] ∧
      idxLt
        (firstIdx
          (profileReturnStage ⟨"Customer", "customerId", ["firstName"]⟩
            ["contact_information"] (fun _ => ["phones", "emails"]))
          "    phones: ")
        (firstIdx
          (profileReturnStage ⟨"Customer", "customerId", ["firstName"]⟩
            ["contact_information"] (fun _ => ["phones", "emails"]))
          "    emails: ") = true := by
  refine ⟨by decide, by decide, by decide, by decide⟩

/-- Claim C6, amended: the handler replaces `minSharedAttributes` by the
default 2 exactly when the supplied value equals 0 (and `limit` by 20 exactly
when it equals 0); a negative supplied value is passed through to the query
parameters unchanged (see the counterexample for −1). -/
theorem synth_defaults_apply_only_at_zero (analyticsPresent dbPresent : Bool)
    (args : DetectSyntheticIdentityInput)
    (ha : analyticsPresent = true) (hd : dbPresent = true)
    (h1 : args.PIIRelationships ≠ []) (h2 : args.EntityConfig.NodeLabel ≠ "")
    (h3 : args.EntityConfig.IdProperty ≠ "") :
    minSharedParamOf (handleDetectSyntheticIdentity analyticsPresent dbPresent args) =
        some (if args.MinSharedAttributes = 0 then 2
              else args.MinSharedAttributes) ∧
      limitParamOf (handleDetectSyntheticIdentity analyticsPresent dbPresent args) =
        some (if args.Limit = 0 then 20 else args.Limit) := by
  subst ha hd
  unfold handleDetectSyntheticIdentity
  rw [if_neg (by simp), if_neg (by simp), if_neg h1, if_neg h2, if_neg h3]
  by_cases he : args.EntityId = "" <;>
    simp [he, minSharedParamOf, limitParamOf]

/-- Witness for the amended C6 theorem: at a supplied value of 0 the
parameters become the defaults 2 and 20. -/
theorem synth_defaults_apply_only_at_zero_witness :
    minSharedParamOf
        (handleDetectSyntheticIdentity true true
          ⟨"CUS123", ⟨"Customer", "customerId", []⟩,
           [⟨"HAS_EMAIL", "Email", "address"⟩], 0, 0⟩) = some 2 ∧
      limitParamOf
        (handleDetectSyntheticIdentity true true
          ⟨"CUS123", ⟨"Customer", "customerId", []⟩,
           [⟨"HAS_EMAIL", "Email", "address"⟩], 0, 0⟩) = some 20 := by
  have h := synth_defaults_apply_only_at_zero true true
    ⟨"CUS123", ⟨"Customer", "customerId", []⟩,
     [⟨"HAS_EMAIL", "Email", "address"⟩], 0, 0⟩
    rfl rfl (by decide) (by decide) (by decide)
  simpa using h

/-- Counterexample to claim C6 as stated: with `minSharedAttributes = -1`
(which is ≤ 0) the handler passes −1 through to the query parameters — the
default 2 is applied only when the supplied value is exactly 0. -/
theorem synth_negative_minShared_counterexample :
    (⟨"CUS123", ⟨"Customer", "customerId", []⟩,
      [⟨"HAS_EMAIL", "Email", "address"⟩], -1, 20⟩ :
        DetectSyntheticIdentityInput).MinSharedAttributes ≤ 0 ∧
      minSharedParamOf
        (handleDetectSyntheticIdentity true true
          ⟨"CUS123", ⟨"Customer", "customerId", []⟩,
           [⟨"HAS_EMAIL", "Email", "address"⟩], -1, 20⟩) = some (-1) := by
  refine ⟨by decide, by decide⟩

theorem findSome?_ite_isSome (l : List String) (f : String → String)
    (p : String → Bool) :
    (l.findSome? (fun kw => if p kw then some (f kw) else none)).isSome =
      l.any p := by
  induction l with
  | nil => rfl
  | cons kw t ih =>
    by_cases h : p kw = true
    · simp [List.findSome?, h]
    · simp only [Bool.not_eq_true] at h
      simp [List.findSome?, h, ih]

/-- Claim C1, amended: in read mode `validateQueryMode` rejects a query
exactly when its upper-cased trimmed text contains one of the eight tokens
`CREATE `, `MERGE `, `DELETE `, `REMOVE `, `SET `, `DROP `, `DETACH DELETE`,
`CALL ` followed by an opening brace; there is no special treatment of
administrative commands, so a `SHOW …` query containing none of these tokens
is accepted in read mode. -/
theorem validateQueryMode_read_characterisation (q : String) :
    (validateQueryMode q "read").isSome =
        writeKeywords.any (fun kw =>
          strContains (goToUpper (goTrimSpace q)) kw) ∧
      validateQueryMode "SHOW DATABASES" "read" = none := by
  constructor
  · unfold validateQueryMode
    simp only [if_pos rfl]
    exact findSome?_ite_isSome _ _ _
  · decide

/-- Counterexample to claim C1 as stated: the administrative query
`SHOW DATABASES` is claimed to be rejected in read mode, but
`validateQueryMode` accepts it (it contains none of the scanned tokens);
conversely a `CALL \x7b …` subquery is rejected by the code although it
contains none of the seven tokens the claim lists. -/
theorem validateQueryMode_admin_counterexample :
    claimIsWriteQuery "SHOW DATABASES" = true ∧
      validateQueryMode "SHOW DATABASES" "read" = none ∧
      validateQueryMode "CALL \x7b MATCH (n) RETURN n \x7d RETURN 1" "read" =
        some "write operation detected in read-only tool: CALL \x7b" ∧
      claimIsWriteQuery "CALL \x7b MATCH (n) RETURN n \x7d RETURN 1" = false := by
  refine ⟨by decide, by decide, by decide, by decide⟩

/-- Claim C8: with an empty visualization result, a node count of 0 makes
`get-schema` return exactly the documented literal success message naming the
configured database, while a positive node count makes it return an error
result instead. -/
theorem getSchema_empty_database_behaviour (dbName : String)
    (rest : List CountRec) (n : Int) (hn : 0 < n) :
    handleGetSchema true true dbName [] (.ok (⟨some (.i64 0)⟩ :: rest)) =
        .res (.text
          ("The get-schema tool executed successfully; however, since the Neo4j database \x27" ++
            dbName ++
            "\x27 contains no data, no schema information was returned.")) ∧
      (handleGetSchema true true dbName []
          (.ok (⟨some (.i64 n)⟩ :: rest))).isErrorRes = true := by
  constructor
  · rfl
  · unfold handleGetSchema
    simp [hn, GetSchemaOutcome.isErrorRes, ToolResult.isError]

/-- Witness for the C8 theorem on the `frauddb` database with node count 7. -/
theorem getSchema_empty_database_behaviour_witness :
    (0 : Int) < 7 ∧
      handleGetSchema true true "frauddb" [] (.ok [⟨some (.i64 0)⟩]) =
        .res (.text
          ("The get-schema tool executed successfully; however, since the Neo4j database \x27" ++
            "frauddb" ++
            "\x27 contains no data, no schema information was returned.")) ∧
      (handleGetSchema true true "frauddb" []
          (.ok [⟨some (.i64 7)⟩])).isErrorRes = true := by
  have h := getSchema_empty_database_behaviour "frauddb" [] 7 (by decide)
  exact ⟨by decide, h.1, h.2⟩

theorem walkEntriesAux_error (L : String) (entries : List FSEntry)
    (h : ∃ e ∈ entries, isYamlFile e.name = true ∧
      exIsOk (parseToolConfig e.content e.path) = false) :
    exIsOk (walkEntriesAux L entries).1 = false := by
  induction entries with
  | nil => obtain ⟨e, he, -⟩ := h; cases he
  | cons e rest ih =>
    obtain ⟨w, hw, hwy, hwp⟩ := h
    by_cases hy : isYamlFile e.name = true
    · cases hp : parseToolConfig e.content e.path with
      | error err => simp [walkEntriesAux, hy, hp, exIsOk]
      | ok cfg =>
        have hwr : w ∈ rest := by
          rcases List.mem_cons.mp hw with rfl | hr
          · rw [hp] at hwp; simp [exIsOk] at hwp
          · exact hr
        have := ih ⟨w, hwr, hwy, hwp⟩
        simp only [walkEntriesAux, hy, not_true, if_false, hp]
        cases hr : (walkEntriesAux L rest).1 with
        | ok cfgs => rw [hr] at this; simp [exIsOk] at this
        | error er => simp [hr, exIsOk]
    · have hwr : w ∈ rest := by
        rcases List.mem_cons.mp hw with rfl | hr
        · exact absurd hwy hy
        · exact hr
      simp only [walkEntriesAux, hy, if_pos, if_neg]
      exact ih ⟨w, hwr, hwy, hwp⟩

/-- Claim C5, amended: a parse or validation failure of a single descriptor
file is logged with the offending file but ABORTS the walk: the walk callback
returns the error, `WalkConfigDirectory` (here with the embedded filesystem
unavailable, falling back to the OS walk) fails as a whole, and
`loadDynamicTools` registers no dynamic tool at all — the valid descriptors
of the same set are lost rather than loaded. -/
theorem invalid_descriptor_aborts_load (entries : List FSEntry)
    (h : ∃ e ∈ entries, isYamlFile e.name = true ∧
      exIsOk (parseToolConfig e.content e.path) = false) :
    exIsOk (walkOSFilesystem true entries).1 = false ∧
      loadDynamicTools none true entries = [] := by
  have hcore := walkEntriesAux_error "failed to parse tool config path=" entries h
  have hwalk : exIsOk (walkOSFilesystem true entries).1 = false := by
    unfold walkOSFilesystem
    simp only [not_true, if_false, if_neg]
    cases hr : (walkEntriesAux "failed to parse tool config path=" entries).1 with
    | ok cfgs => rw [hr] at hcore; simp [exIsOk] at hcore
    | error er => simp [hr, exIsOk]
  refine ⟨hwalk, ?_⟩
  unfold loadDynamicTools WalkConfigDirectory walkEmbeddedConfigs
  simp only
  cases hr : (walkOSFilesystem true entries).1 with
  | ok cfgs => rw [hr] at hwalk; simp [exIsOk] at hwalk
  | error er => simp [hr]

/-- Witness for the amended C5 theorem at a three-file set whose middle file
has a YAML decode failure. -/
theorem invalid_descriptor_aborts_load_witness :
    (∃ e ∈ [(⟨"fraud/tool-a.yaml", "tool-a.yaml",
              some ⟨"tool-a", "First tool.", "", [], "", none, [], ""⟩⟩ : FSEntry),
            ⟨"fraud/broken.yaml", "broken.yaml", none⟩,
            ⟨"fraud/tool-b.yaml", "tool-b.yaml",
              some ⟨"tool-b", "Second tool.", "", [], "", none, [], ""⟩⟩],
        isYamlFile e.name = true ∧
          exIsOk (parseToolConfig e.content e.path) = false) ∧
      loadDynamicTools none true
        [⟨"fraud/tool-a.yaml", "tool-a.yaml",
           some ⟨"tool-a", "First tool.", "", [], "", none, [], ""⟩⟩,
         ⟨"fraud/broken.yaml", "broken.yaml", none⟩,
         ⟨"fraud/tool-b.yaml", "tool-b.yaml",
           some ⟨"tool-b", "Second tool.", "", [], "", none, [], ""⟩⟩] = [] := by
  refine ⟨⟨⟨"fraud/broken.yaml", "broken.yaml", none⟩, by decide, by decide, by decide⟩, ?_⟩
  exact (invalid_descriptor_aborts_load _
    ⟨⟨"fraud/broken.yaml", "broken.yaml", none⟩, by decide, by decide, by decide⟩).2

/-- Counterexample to claim C5 as stated: in a descriptor set containing one
invalid file, a perfectly valid descriptor (`tool-a`, which parses
successfully on its own) produces NO registered tool — loading of the
remaining descriptors is aborted, not continued.  The failure is logged with
the offending file, as the log line shows. -/
theorem invalid_descriptor_counterexample :
    exIsOk
        (parseToolConfig (some ⟨"tool-a", "First tool.", "", [], "", none, [], ""⟩)
          "fraud/tool-a.yaml") = true ∧
      loadDynamicTools none true
        [⟨"fraud/tool-a.yaml", "tool-a.yaml",
           some ⟨"tool-a", "First tool.", "", [], "", none, [], ""⟩⟩,
         ⟨"fraud/broken.yaml", "broken.yaml", none⟩,
         ⟨"fraud/tool-b.yaml", "tool-b.yaml",
           some ⟨"tool-b", "Second tool.", "", [], "", none, [], ""⟩⟩] = [] ∧
      "failed to parse tool config path=fraud/broken.yaml" ∈
        (walkOSFilesystem true
          [⟨"fraud/tool-a.yaml", "tool-a.yaml",
             some ⟨"tool-a", "First tool.", "", [], "", none, [], ""⟩⟩,
           ⟨"fraud/broken.yaml", "broken.yaml", none⟩,
           ⟨"fraud/tool-b.yaml", "tool-b.yaml",
             some ⟨"tool-b", "Second tool.", "", [], "", none, [], ""⟩⟩]).2 := by
  refine ⟨by decide, by decide, by decide⟩

/-- Claim C10, amended: the query-backed handlers (`handleGetCustomerProfile`
and `handleDetectSyntheticIdentity`) return the dependency-error result
`Analytics service is not initialized` whenever the analytics service pointer
is nil; the YAML-backed guidance handler of the guidance generation, however,
tolerates a nil analytics service: it returns the enriched description as a
success result under every dependency state, and never fails at all. -/
theorem nil_analytics_behaviour (c : ToolConfig) (ap dbp : Bool)
    (args : GetCustomerProfileInput) (sargs : DetectSyntheticIdentityInput)
    (catOrder : List String) (keyOrder : String → List String) :
    handleDynamicToolGuide ap c = .text (buildEnrichedDescription c) ∧
      (handleDynamicToolGuide ap c).isError = false ∧
      handleGetCustomerProfile false dbp args catOrder keyOrder =
        .errorResult "Analytics service is not initialized" ∧
      handleDetectSyntheticIdentity false dbp sargs =
        .errorResult "Analytics service is not initialized" := by
  refine ⟨rfl, rfl, ?_, ?_⟩
  · simp [handleGetCustomerProfile]
  · simp [handleDetectSyntheticIdentity]

/-- Counterexample to claim C10 as stated: invoked with a nil analytics
service, the YAML-backed guidance handler does not return a dependency error
— it proceeds and returns its guidance text as a success result. -/
theorem guidance_handler_nil_analytics_counterexample :
    (handleDynamicToolGuide false
        ⟨"generate-scene-action", "Bloom scene guidance.", "", [], "", none,
          [], "bloom"⟩).isError = false ∧
      handleDynamicToolGuide false
          ⟨"generate-scene-action", "Bloom scene guidance.", "", [], "", none,
            [], "bloom"⟩ =
        .text "Bloom scene guidance." := by
  refine ⟨by decide, by decide⟩

/-- Claim C2 (code bug): in a read-only deployment the filter does keep only
tools whose `readonly` flag is true — but `loadDynamicTools` hard-codes that
flag to true for every YAML tool, so a dynamic tool whose execution mode is
`write` survives the read-only filter and stays registered, and its handler
dispatches queries to `ExecuteWriteQuery`; the registered table therefore
contains a write-capable tool, contradicting the claim and the code's own
comments. -/
theorem readonly_deployment_write_capable_tool_registered :
    (∀ t ∈ getEnabledTools true true
        [⟨"run-liquidity-update", "Run Liquidity Update",
          "Updates liquidity aggregates.", some ⟨"write", 30000⟩,
          "liquidity", true, true, false⟩],
      t.readonly = true) ∧
      (⟨.dynamicCat, "run-liquidity-update", true,
        some ⟨"run-liquidity-update", "Run Liquidity Update",
          "Updates liquidity aggregates.", some ⟨"write", 30000⟩,
          "liquidity", true, true, false⟩⟩ : ToolDefinition) ∈
        getEnabledTools true true
          [⟨"run-liquidity-update", "Run Liquidity Update",
            "Updates liquidity aggregates.", some ⟨"write", 30000⟩,
            "liquidity", true, true, false⟩] ∧
      handleDynamicTool true true
          ⟨"run-liquidity-update", "Run Liquidity Update",
            "Updates liquidity aggregates.", some ⟨"write", 30000⟩,
            "liquidity", true, true, false⟩
          "CREATE (n:Aggregate) RETURN n" =
        .execWriteQ "CREATE (n:Aggregate) RETURN n" := by
  refine ⟨by decide, by decide, by decide⟩

